import Mathlib

/-!
Verification of the CoinTaxman price resolution and caching engine.

Shallow embedding of `src/price_data.py` (class `PriceData`).

Modelling conventions:
* Python `decimal.Decimal` prices are modelled as exact rationals `ℚ`.
* `datetime.datetime` timestamps are modelled as integers (milliseconds).
* The per-venue sqlite databases are modelled as one association list from
  the key (database path = platform, table name = "coin/reference", utc time)
  to the stored price.  A missing file or missing table both read as `none`,
  exactly as `__get_price_db` treats them.
* Remote venues are modelled as explicit oracle functions supplied as
  arguments; logging is modelled, where a claim mentions it, as a boolean
  "warned" component of the result.
-/

namespace CoinTaxman

/-- A cache key: `(platform, tablename, utc_time)`.  `get_db_path` maps the
platform to the database file and `get_tablename` builds the table name, so
the triple identifies one row of one table of one per-venue database. -/
abbrev Key := String × String × Int

/-- The per-venue sqlite stores, flattened into one association list.
`INSERT` conses a row; lookups take the first match (keys are unique because
`utc_time` is the table's primary key and inserts on an existing key fail). -/
abbrev Store := List (Key × ℚ)

/-- Model of `get_tablename`: the table for a coin pair is named coin, slash, reference coin. -/
def get_tablename (coin reference_coin : String) : String :=
  coin ++ "/" ++ reference_coin

/-- Model of the private read `__get_price_db`: select the price at the exact key, with a
missing database file or a missing table reading as `none`. -/
def get_price_db : Store → Key → Option ℚ
  | [], _ => none
  | e :: rest, k => if e.1 = k then some e.2 else get_price_db rest k

/-- Model of the private write `__set_price_db`: a plain `INSERT` of `(utc_time, price)`; the sqlite
`UNIQUE` constraint on the primary key `utc_time` makes the insert raise an
`IntegrityError` (modelled as `none`) when a row with that key exists.
Lazy table creation is a no-op in this model. -/
def set_price_db_raw (s : Store) (k : Key) (price : ℚ) : Option Store :=
  match get_price_db s k with
  | some _ => none
  | none => some ((k, price) :: s)

/-- The venue fetchers `_get_price_{platform}`, abstracted into one oracle:
`(platform, coin, utc_time, reference_coin) ↦ price`.  (The reflective
`getattr` dispatch and its `NotImplementedError` branch are outside the
claims modelled here.) -/
abbrev Fetcher := String → String → Int → String → ℚ

/-- Model of `get_price`: price `1` for an identity pair; otherwise a cache read
(`__get_price_db`, taken when the result `is not None` — so a cached zero
price is served); on a miss the platform fetcher is called and the result is
written through with `__set_price_db` before returning.  The insert cannot
conflict there, because the lookup just returned `none`, so it is modelled
as a cons.  Returns `(price, store, number of remote fetches issued)`. -/
def get_price (fetch : Fetcher) (s : Store) (platform coin : String) (t : Int)
    (reference_coin : String) : ℚ × Store × Nat :=
  if coin = reference_coin then (1, s, 0)
  else
    match get_price_db s (platform, get_tablename coin reference_coin, t) with
    | some price => (price, s, 0)
    | none =>
      let price := fetch platform coin t reference_coin
      (price, ((platform, get_tablename coin reference_coin, t), price) :: s, 1)

/-- Model of `set_price_db` (the public write): try the raw `INSERT`; on the
`UNIQUE constraint failed` `IntegrityError`, read the already-stored price
back through `get_price` and warn exactly when it differs from the price
being written.  The source asserts `coin != reference_coin` on entry; the
theorems below carry that as a hypothesis.  Returns `(store, warned)`. -/
def set_price_db (fetch : Fetcher) (s : Store) (platform coin reference_coin : String)
    (t : Int) (price : ℚ) : Store × Bool :=
  match set_price_db_raw s (platform, get_tablename coin reference_coin, t) price with
  | some s' => (s', false)
  | none =>
    let price_db := (get_price fetch s platform coin t reference_coin).1
    (s, decide (price ≠ price_db))

/-- C2: first write wins in the price cache: with `p1` already stored under
the key, `set_price_db` with `p2` leaves the store unchanged and warns
exactly when `p2 ≠ p1` (a rewrite of the identical price is a silent no-op). -/
theorem set_price_db_first_write_wins (fetch : Fetcher) (s : Store)
    (platform coin reference_coin : String) (t : Int) (p1 p2 : ℚ)
    (hcr : coin ≠ reference_coin)
    (hstored : get_price_db s (platform, get_tablename coin reference_coin, t) = some p1) :
    (set_price_db fetch s platform coin reference_coin t p2).1 = s ∧
      ((set_price_db fetch s platform coin reference_coin t p2).2 = true ↔ p2 ≠ p1) := by
  simp only [set_price_db, set_price_db_raw, get_price, hstored, if_neg hcr]
  simp

/-- Witness for C2: a concrete store holding price 5; rewriting 6 keeps 5 and
warns, as `set_price_db_first_write_wins` instantiates. -/
theorem set_price_db_first_write_wins_witness :
    ("BTC" : String) ≠ "EUR" ∧
      ((set_price_db (fun _ _ _ _ => 99) [(("kraken", "BTC/EUR", 7), 5)]
          "kraken" "BTC" "EUR" 7 6).1 = [(("kraken", "BTC/EUR", 7), 5)] ∧
        ((set_price_db (fun _ _ _ _ => 99) [(("kraken", "BTC/EUR", 7), 5)]
            "kraken" "BTC" "EUR" 7 6).2 = true ↔ (6 : ℚ) ≠ 5)) :=
  ⟨by decide,
    set_price_db_first_write_wins (fun _ _ _ _ => 99) [(("kraken", "BTC/EUR", 7), 5)]
      "kraken" "BTC" "EUR" 7 5 6 (by decide) rfl⟩

/-- C3: `get_price` is idempotent for a non-identity pair: the second of two
consecutive calls with identical arguments returns a price equal to the
first call's, issues no remote fetch (it is served from the cache, which the
first call wrote through on a miss), and the two calls together issue at
most one remote fetch. -/
theorem get_price_idempotent (fetch : Fetcher) (s : Store) (platform coin : String)
    (t : Int) (reference_coin : String) (hcr : coin ≠ reference_coin) :
    (get_price fetch ((get_price fetch s platform coin t reference_coin).2.1)
        platform coin t reference_coin).1 =
      (get_price fetch s platform coin t reference_coin).1 ∧
    (get_price fetch ((get_price fetch s platform coin t reference_coin).2.1)
        platform coin t reference_coin).2.2 = 0 ∧
    (get_price fetch s platform coin t reference_coin).2.2 +
      (get_price fetch ((get_price fetch s platform coin t reference_coin).2.1)
          platform coin t reference_coin).2.2 ≤ 1 ∧
    get_price_db ((get_price fetch s platform coin t reference_coin).2.1)
        (platform, get_tablename coin reference_coin, t) =
      some (get_price fetch s platform coin t reference_coin).1 := by
  cases hdb : get_price_db s (platform, get_tablename coin reference_coin, t) with
  | some p => simp [get_price, hcr, hdb]
  | none => simp [get_price, hcr, hdb, get_price_db]

/-- Witness for C3: on an empty store, the first call fetches and caches, the
second is a pure cache hit, per `get_price_idempotent` at a concrete input. -/
theorem get_price_idempotent_witness :
    ("BTC" : String) ≠ "EUR" ∧
      ((get_price (fun _ _ _ _ => 42) ((get_price (fun _ _ _ _ => 42) [] "kraken" "BTC" 7
            "EUR").2.1) "kraken" "BTC" 7 "EUR").1 =
        (get_price (fun _ _ _ _ => 42) [] "kraken" "BTC" 7 "EUR").1 ∧
      (get_price (fun _ _ _ _ => 42) ((get_price (fun _ _ _ _ => 42) [] "kraken" "BTC" 7
            "EUR").2.1) "kraken" "BTC" 7 "EUR").2.2 = 0 ∧
      (get_price (fun _ _ _ _ => 42) [] "kraken" "BTC" 7 "EUR").2.2 +
        (get_price (fun _ _ _ _ => 42) ((get_price (fun _ _ _ _ => 42) [] "kraken" "BTC" 7
              "EUR").2.1) "kraken" "BTC" 7 "EUR").2.2 ≤ 1 ∧
      get_price_db ((get_price (fun _ _ _ _ => 42) [] "kraken" "BTC" 7 "EUR").2.1)
          ("kraken", get_tablename "BTC" "EUR", 7) =
        some (get_price (fun _ _ _ _ => 42) [] "kraken" "BTC" 7 "EUR").1) :=
  ⟨by decide,
    get_price_idempotent (fun _ _ _ _ => 42) [] "kraken" "BTC" 7 "EUR" (by decide)⟩

/-- C10: a price resolved on a cache miss — whatever its value, the zero
"could not price" sentinel included, since `fetch` is arbitrary here — is
written to the cache before `get_price` returns, and a subsequent call for
the same key returns that stored value from the cache with no remote fetch
(`get_price` tests the lookup with `is not None`, so a stored zero is served). -/
theorem get_price_caches_fetched_value (fetch : Fetcher) (s : Store)
    (platform coin : String) (t : Int) (reference_coin : String)
    (hcr : coin ≠ reference_coin)
    (hmiss : get_price_db s (platform, get_tablename coin reference_coin, t) = none) :
    get_price fetch s platform coin t reference_coin =
      (fetch platform coin t reference_coin,
        ((platform, get_tablename coin reference_coin, t),
          fetch platform coin t reference_coin) :: s, 1) ∧
    get_price fetch (((platform, get_tablename coin reference_coin, t),
          fetch platform coin t reference_coin) :: s) platform coin t reference_coin =
      (fetch platform coin t reference_coin,
        ((platform, get_tablename coin reference_coin, t),
          fetch platform coin t reference_coin) :: s, 0) := by
  constructor
  · simp [get_price, hcr, hmiss]
  · simp [get_price, hcr, get_price_db]

/-- Witness for C10: a fetcher that reports the zero sentinel; the zero is
cached and the second call is served from the cache with no fetch, per
`get_price_caches_fetched_value` on the empty store. -/
theorem get_price_caches_fetched_value_witness :
    ("ABC" : String) ≠ "EUR" ∧
      (get_price (fun _ _ _ _ => 0) [] "kraken" "ABC" 3 "EUR" =
        (0, [(("kraken", "ABC/EUR", 3), 0)], 1) ∧
      get_price (fun _ _ _ _ => 0) [(("kraken", "ABC/EUR", 3), 0)] "kraken" "ABC" 3 "EUR" =
        (0, [(("kraken", "ABC/EUR", 3), 0)], 0)) :=
  ⟨by decide,
    get_price_caches_fetched_value (fun _ _ _ _ => 0) [] "kraken" "ABC" 3 "EUR"
      (by decide) rfl⟩

/-- One row of a Kraken `Trades` response as `_get_price_kraken` reads it:
the decimal price (entry 0) and the trade time converted to milliseconds
(`int(float(d[2]) * 1000)`). -/
structure Trade where
  price : ℚ
  timeMs : Int

/-- Model of `bisect.bisect_left` on the ascending trade-timestamp list: the leftmost
insertion point for the target, i.e. the length of the prefix of entries
smaller than the target. -/
def bisectLeft (l : List Int) (x : Int) : Nat :=
  (l.takeWhile (fun a => decide (a < x))).length

/-- The successive values `minutes_offset` takes: the loop adds `step` and
queries while the previous value was `< 120`, so the offsets used are
`step, 2·step, …` up to and including the first multiple of `step` that
reaches 120 (`(120 + step - 1) / step = ⌈120 / step⌉` many).  For `step = 0`
the source loop would never terminate; that value is unreachable, since
`minutes_step` starts at 10 and the step-narrowing recursion stops at 1. -/
def krakenOffsets (step : Nat) : List Nat :=
  (List.range ((120 + step - 1) / step)).map (fun k => (k + 1) * step)

/-- What a run of the `while minutes_offset < 120` loop decides. -/
inductive KrakenScan where
  | found (price : ℚ)
  | giveUp
  | reduceStep
deriving DecidableEq

/-- The `while minutes_offset < 120` loop of `_get_price_kraken`, over the
offsets it would use.  For each offset: fetch that offset's page and locate
`closest_match_index = bisect_left(timestamps, target_timestamp) - 1`.
Index `-1` (`bisect_left = 0`: page entirely at or after the target) is
`continue`; the last index (`bisect_left = length`: page overshot) is
`break` into the give-up exit when `minutes_step == 1`, else the restart
with `minutes_step - 1`; otherwise the matched trade's price is returned.
Exhausting the offsets is the loop exit that warns and reports price zero.
The second component is the trace of offsets actually queried.  (The inner
HTTP retry loop is modelled as always succeeding; its exhaustion raises
`RuntimeError` and is outside the claims modelled here.) -/
def krakenScan (pages : Nat → List Trade) (targetMs : Int) (step : Nat) :
    List Nat → KrakenScan × List Nat
  | [] => (.giveUp, [])
  | off :: rest =>
    if bisectLeft ((pages off).map Trade.timeMs) targetMs = 0 then
      ((krakenScan pages targetMs step rest).1,
        off :: (krakenScan pages targetMs step rest).2)
    else if bisectLeft ((pages off).map Trade.timeMs) targetMs = (pages off).length then
      if step = 1 then (.giveUp, [off]) else (.reduceStep, [off])
    else
      (match (pages off).get? (bisectLeft ((pages off).map Trade.timeMs) targetMs - 1) with
        | some d => .found d.price
        | none => .giveUp,
      [off])

/-- Model of `_get_price_kraken`, with the venue's page for each minutes offset
supplied by `pages`.  Structural recursion on `minutes_step`: the source's
recursive call passes `minutes_step - 1` and is only reached when
`minutes_step ≥ 2`.  Returns `(price, warned, trace of offsets queried over
all step reductions)`.  The `0` case is unreachable from the source's calls
(`minutes_step` defaults to 10 and the recursion stops at 1). -/
def get_price_kraken (pages : Nat → List Trade) (targetMs : Int) :
    Nat → ℚ × Bool × List Nat
  | 0 => (0, true, [])
  | step + 1 =>
    match krakenScan pages targetMs (step + 1) (krakenOffsets (step + 1)) with
    | (.found p, tr) => (p, false, tr)
    | (.giveUp, tr) => (0, true, tr)
    | (.reduceStep, tr) =>
      ((get_price_kraken pages targetMs step).1,
        (get_price_kraken pages targetMs step).2.1,
        tr ++ (get_price_kraken pages targetMs step).2.2)

/-- Every offset the loop queries comes from `krakenOffsets`. -/
lemma krakenScan_trace_subset (pages : Nat → List Trade) (targetMs : Int) (step : Nat) :
    ∀ offs : List Nat, ∀ off ∈ (krakenScan pages targetMs step offs).2, off ∈ offs := by
  intro offs
  induction offs with
  | nil => simp [krakenScan]
  | cons o rest ih =>
    intro off hoff
    simp only [krakenScan] at hoff
    split_ifs at hoff with h0 hlen h1 <;> simp_all <;> tauto

/-- For steps between 1 and 10, no generated offset exceeds 126 minutes
(the least multiple of the step reaching 120 is largest for steps 7 and 9). -/
lemma krakenOffsets_le (step : Nat) (h1 : 1 ≤ step) (h2 : step ≤ 10) :
    ∀ off ∈ krakenOffsets step, off ≤ 126 := by
  intro off hoff
  simp only [krakenOffsets, List.mem_map, List.mem_range] at hoff
  obtain ⟨k, hk, rfl⟩ := hoff
  interval_cases step <;> omega

/-- Whenever the fetcher reports the missing-data warning, its price is zero. -/
lemma get_price_kraken_warned_zero (pages : Nat → List Trade) (targetMs : Int) :
    ∀ step, (get_price_kraken pages targetMs step).2.1 = true →
      (get_price_kraken pages targetMs step).1 = 0 := by
  intro step
  induction step with
  | zero => simp [get_price_kraken]
  | succ n ih =>
    simp only [get_price_kraken]
    rcases hscan : krakenScan pages targetMs (n + 1) (krakenOffsets (n + 1)) with ⟨res, tr⟩
    cases res <;> simp_all

/-- Offsets queried over the whole run (step reductions included) stay ≤ 126
when the initial step is at most 10. -/
lemma get_price_kraken_trace_le (pages : Nat → List Trade) (targetMs : Int) :
    ∀ step, step ≤ 10 → ∀ off ∈ (get_price_kraken pages targetMs step).2.2, off ≤ 126 := by
  intro step
  induction step with
  | zero => simp [get_price_kraken]
  | succ n ih =>
    intro hle off hoff
    simp only [get_price_kraken] at hoff
    rcases hscan : krakenScan pages targetMs (n + 1) (krakenOffsets (n + 1)) with ⟨res, tr⟩
    have htr : ∀ o ∈ tr, o ≤ 126 := by
      intro o ho
      exact krakenOffsets_le (n + 1) (by omega) hle o
        (krakenScan_trace_subset pages targetMs (n + 1) (krakenOffsets (n + 1)) o
          (by rw [hscan]; exact ho))
    rw [hscan] at hoff
    cases res with
    | found p => exact htr off (by simpa using hoff)
    | giveUp => exact htr off (by simpa using hoff)
    | reduceStep =>
      simp only [List.mem_append] at hoff
      rcases hoff with h | h
      · exact htr off (by simpa using h)
      · exact ih (by omega) off h

/-- C5 (amended): the Kraken fetcher always terminates (its model is total by
structural recursion: the offset loop runs over the finitely many offsets
below the ceiling and the step-narrowing recursion strictly decreases the
step down to 1); for an initial step between 1 and 10 every trade-history
query uses a time offset of at most 126 minutes (the loop tests
`minutes_offset < 120` *before* adding the step, so the last offset is the
first multiple of the step reaching 120 — up to 126 for steps 7 and 9, not
120); and whenever no matching trade is found the fetcher warns and returns
the zero price rather than raising. -/
theorem kraken_search_bound (pages : Nat → List Trade) (targetMs : Int) (step : Nat)
    (h1 : 1 ≤ step) (h2 : step ≤ 10) :
    (∀ off ∈ (get_price_kraken pages targetMs step).2.2, off ≤ 126) ∧
      ((get_price_kraken pages targetMs step).2.1 = true →
        (get_price_kraken pages targetMs step).1 = 0) :=
  ⟨get_price_kraken_trace_le pages targetMs step h2,
    get_price_kraken_warned_zero pages targetMs step⟩

/-- The pages of a run that reaches a 126-minute offset: the first query
(offset 10) returns a single trade just before the target, so the page
"overshoots" and the step narrows to 9; afterwards every page holds only a
trade after the target, so the loop widens through offsets 9, 18, …, 126. -/
def krakenPagesCE : Nat → List Trade := fun off =>
  if off = 10 then [⟨5, 999999⟩] else [⟨5, 1000001⟩]

/-- Counterexample to C5 as stated: on `krakenPagesCE` (initial step 10, the
source's default) the fetcher issues a trade-history query with a 126-minute
offset, so the offset is not capped at 120 minutes. -/
theorem kraken_offset_exceeds_120 :
    ¬ ∀ off ∈ (get_price_kraken krakenPagesCE 1000000 10).2.2, off ≤ 120 := by
  decide

/-- Witness for C5: the amended bound instantiated on the same concrete run. -/
theorem kraken_search_bound_witness :
    1 ≤ 10 ∧ 10 ≤ 10 ∧
      ((∀ off ∈ (get_price_kraken krakenPagesCE 1000000 10).2.2, off ≤ 126) ∧
        ((get_price_kraken krakenPagesCE 1000000 10).2.1 = true →
          (get_price_kraken krakenPagesCE 1000000 10).1 = 0)) :=
  ⟨by decide, by decide, kraken_search_bound krakenPagesCE 1000000 10 (by decide) (by decide)⟩

/-- The spec's bracketing page: trades 50 s, 20 s and 5 s before and 10 s
after the target (prices 1, 2, 3, 4), at every offset. -/
def krakenPagesExample : Nat → List Trade :=
  fun _ => [⟨1, 950000⟩, ⟨2, 980000⟩, ⟨3, 995000⟩, ⟨4, 1010000⟩]

/-- A page that also holds a trade at exactly the target timestamp:
trades 50 s before (price 5) and at (price 7) the target 1000000 ms. -/
def krakenPagesExact : Nat → List Trade :=
  fun _ => [⟨5, 950000⟩, ⟨7, 1000000⟩]

/-- C4, evaluated on the code: on the bracketing page the selected trade is
the one 5 s before the target (price 3), as the claim's example says; but on
a page whose last trade falls exactly on the target timestamp the fetcher
returns the price of the trade *before* it (price 5, the 50-seconds-earlier
trade), not the exact match's price 7: `bisect_left(ts, target) - 1` indexes
the most recent trade strictly before the target, so an exact-timestamp
match is never selected, contradicting both the claim and the source's own
docstring ("closest …, but not newer"). -/
theorem kraken_selection_behaviour :
    (get_price_kraken krakenPagesExample 1000000 10).1 = 3 ∧
      (get_price_kraken krakenPagesExact 1000000 10).1 = 5 := by
  decide

/-- A Binance `aggTrades` response for a symbol `base ++ quote` at a time
window: either the error envelope `code == -1121, msg == "Invalid symbol."`,
or the list of trades, each carrying its decimal price `p` and quantity `q`. -/
inductive BinanceData where
  | invalidSymbol
  | trades (data : List (ℚ × ℚ))
deriving DecidableEq

/-- The venue's answer per `(base_asset, quote_asset, utc_time)`. -/
abbrev BinanceApi := String → String → Int → BinanceData

/-- The accumulation loop of `_get_price_binance`:
`total_cost += price * quantity; total_quantity += quantity` over the trades,
starting from `(0, 0)`. -/
def binanceTotals (data : List (ℚ × ℚ)) : ℚ × ℚ :=
  data.foldl (fun acc d => (acc.1 + d.1 * d.2, acc.2 + d.2)) (0, 0)

/-- The error raised when even the symbol-swapped retry fails:
`RuntimeError(f"Can not retrieve {symbol=} from binance")`. -/
def binanceErrorMsg : String := "Can not retrieve symbol from binance"

mutual

/-- Model of `get_price` specialised to the "binance" platform (the only one the
bridge-fallback claims involve): 1 for an identity pair; else the cache
read; on a miss, call `_get_price_binance` — `get_price` forwards the
`swapped_symbols` keyword through `**kwargs` — and write the result through
before returning.  The recursion between `get_price` and the fetcher is
modelled with a `fuel` parameter; every claim quantifies over it.
`RuntimeError` is `Except.error`. -/
def binance_get_price : Nat → BinanceApi → Store → String → Int → String → Bool →
    Except String (ℚ × Store)
  | 0, _, _, _, _, _, _ => .error "fuel"
  | fuel + 1, api, s, coin, t, reference_coin, swapped =>
    if coin = reference_coin then .ok (1, s)
    else
      match get_price_db s ("binance", get_tablename coin reference_coin, t) with
      | some price => .ok (price, s)
      | none =>
        match binance_fetch fuel api s coin t reference_coin swapped with
        | .ok (price, _warned, s') =>
          .ok (price, (("binance", get_tablename coin reference_coin, t), price) :: s')
        | .error e => .error e

/-- Model of `_get_price_binance`: query `aggTrades` for the symbol
`base_asset ++ quote_asset` in the 1-minute window.  On the invalid-symbol
envelope: if the quote is already `"BTC"`, either fail for good (the
symbol-swapped retry has already been tried) or retry once with the assets
swapped and invert the price (`misc.reciprocal`, modelled from the spec as
the multiplicative inverse — `misc.py` is not among the repository files);
otherwise bridge through BTC: `price(base, quote) = get_price(base, BTC) *
get_price(BTC, quote)`.  With a trade list: an empty window logs a warning
and returns the zero sentinel (the `Bool` component records that warning);
otherwise the volume-weighted average `total_cost / total_quantity`. -/
def binance_fetch : Nat → BinanceApi → Store → String → Int → String → Bool →
    Except String (ℚ × Bool × Store)
  | 0, _, _, _, _, _, _ => .error "fuel"
  | fuel + 1, api, s, base_asset, t, quote_asset, swapped =>
    match api base_asset quote_asset t with
    | .invalidSymbol =>
      if quote_asset = "BTC" then
        if swapped then .error binanceErrorMsg
        else
          match binance_get_price fuel api s quote_asset t base_asset true with
          | .ok (price, s') => .ok (1 / price, false, s')
          | .error e => .error e
      else
        match binance_get_price fuel api s base_asset t "BTC" false with
        | .ok (btc, s1) =>
          match binance_get_price fuel api s1 "BTC" t quote_asset false with
          | .ok (quote, s2) => .ok (btc * quote, false, s2)
          | .error e => .error e
        | .error e => .error e
    | .trades data =>
      if data.length = 0 then .ok (0, true, s)
      else .ok ((binanceTotals data).1 / (binanceTotals data).2, false, s)

end

/-- The accumulation loop computes exactly the two sums, from any start. -/
lemma binanceTotals_go (data : List (ℚ × ℚ)) :
    ∀ a b : ℚ, data.foldl (fun acc d => (acc.1 + d.1 * d.2, acc.2 + d.2)) (a, b) =
      (a + (data.map (fun d => d.1 * d.2)).sum, b + (data.map (fun d => d.2)).sum) := by
  induction data with
  | nil => simp
  | cons d rest ih => intro a b; simp [ih, add_assoc]

/-- The totals `total_cost` and `total_quantity` are the sums over the trade window. -/
lemma binanceTotals_eq (data : List (ℚ × ℚ)) :
    binanceTotals data =
      ((data.map (fun d => d.1 * d.2)).sum, (data.map (fun d => d.2)).sum) := by
  simpa using binanceTotals_go data 0 0

/-- C8: Binance bridge fallback.  When the venue reports the direct symbol
invalid: (a) if the quote asset is not BTC, the fetcher's result is exactly
the product of `get_price(binance, base, t, BTC)` and
`get_price(binance, BTC, t, quote)` (the second evaluated in the cache state
the first left behind), whatever the `swapped_symbols` flag; (b) if the
quote asset is already BTC and the symbol-swapped retry has also failed
(`swapped_symbols` set), the fetcher raises the unrecoverable
`RuntimeError` with no further fallback. -/
theorem binance_bridge_fallback (api : BinanceApi) (s : Store) (base_asset quote_asset : String)
    (t : Int) (fuel : Nat) (hinv : api base_asset quote_asset t = .invalidSymbol) :
    (∀ swapped, quote_asset ≠ "BTC" →
      ∀ btc quote s1 s2,
        binance_get_price fuel api s base_asset t "BTC" false = .ok (btc, s1) →
        binance_get_price fuel api s1 "BTC" t quote_asset false = .ok (quote, s2) →
        binance_fetch (fuel + 1) api s base_asset t quote_asset swapped =
          .ok (btc * quote, false, s2)) ∧
    (quote_asset = "BTC" →
      binance_fetch (fuel + 1) api s base_asset t quote_asset true =
        .error binanceErrorMsg) := by
  constructor
  · intro swapped hq btc quote s1 s2 h1 h2
    simp only [binance_fetch, hinv, if_neg hq, h1, h2]
  · intro hq
    subst hq
    simp [binance_fetch, hinv]

/-- A concrete venue for the C8 witness: `TWTEUR` is invalid, `TWTBTC`
trades at 2 and `BTCEUR` at 30000 (one trade of quantity 1 each). -/
def binanceApiBridge : BinanceApi := fun base quote _ =>
  if base = "TWT" && quote = "EUR" then .invalidSymbol
  else if base = "TWT" && quote = "BTC" then .trades [(2, 1)]
  else .trades [(30000, 1)]

/-- Witness for C8: on `binanceApiBridge` with an empty cache the fetcher
resolves `TWT/EUR` to `2 * 30000`, through `binance_bridge_fallback`. -/
theorem binance_bridge_fallback_witness :
    binanceApiBridge "TWT" "EUR" 0 = .invalidSymbol ∧ ("EUR" : String) ≠ "BTC" ∧
      binance_fetch 3 binanceApiBridge [] "TWT" 0 "EUR" false =
        .ok (2 * 30000, false,
          [(("binance", "BTC/EUR", 0), 30000), (("binance", "TWT/BTC", 0), 2)]) :=
  ⟨rfl, by decide,
    (binance_bridge_fallback binanceApiBridge [] "TWT" "EUR" 0 2 rfl).1 false (by decide)
      2 30000 [(("binance", "TWT/BTC", 0), 2)]
      [(("binance", "BTC/EUR", 0), 30000), (("binance", "TWT/BTC", 0), 2)]
      (by simp [binance_get_price, binance_fetch, binanceApiBridge, get_price_db,
        get_tablename, binanceTotals])
      (by simp [binance_get_price, binance_fetch, binanceApiBridge, get_price_db,
        get_tablename, binanceTotals])⟩

/-- C9: the Binance price for a trade window is the volume-weighted average:
the venue returning trades `data` for the symbol, a non-empty window yields
exactly `sum(price·quantity) / sum(quantity)` (the accumulation loop's
totals, in exact arithmetic), and an empty window yields the zero sentinel
with the warning, not a failure. -/
theorem binance_volume_weighted_average (api : BinanceApi) (s : Store)
    (base_asset quote_asset : String) (t : Int) (swapped : Bool) (fuel : Nat)
    (data : List (ℚ × ℚ)) (hapi : api base_asset quote_asset t = .trades data) :
    (data ≠ [] →
      binance_fetch (fuel + 1) api s base_asset t quote_asset swapped =
        .ok ((data.map (fun d => d.1 * d.2)).sum / (data.map (fun d => d.2)).sum,
          false, s)) ∧
    (data = [] →
      binance_fetch (fuel + 1) api s base_asset t quote_asset swapped =
        .ok (0, true, s)) := by
  constructor
  · intro hne
    simp only [binance_fetch, hapi, binanceTotals_eq]
    rw [if_neg (by simpa using hne)]
  · intro he
    subst he
    simp [binance_fetch, hapi]

/-- A venue answering every symbol with the spec's two trades
`[(price 10, qty 1), (price 20, qty 3)]`. -/
def binanceApiVWA : BinanceApi := fun _ _ _ => .trades [(10, 1), (20, 3)]

/-- Witness for C9: on the spec's example trades the computed average is
exactly `35/2 = 17.5`, through `binance_volume_weighted_average`. -/
theorem binance_volume_weighted_average_witness :
    binanceApiVWA "TWT" "EUR" 0 = .trades [(10, 1), (20, 3)] ∧
      ([(10, 1), (20, 3)] : List (ℚ × ℚ)) ≠ [] ∧
      binance_fetch 1 binanceApiVWA [] "TWT" 0 "EUR" false = .ok (35 / 2, false, []) :=
  ⟨rfl, by decide, by
    have h := (binance_volume_weighted_average binanceApiVWA [] "TWT" "EUR" 0 false 0
      [(10, 1), (20, 3)] rfl).1 (by decide)
    rw [h]
    norm_num⟩

/-- The batch span of `_get_bulk_pair_data_path`: `maxminutes = 300`, and a
batch is closed by the test
`current_first + datetime.timedelta(minutes=maxminutes - 4) > timestamp`,
i.e. a 296-minute window; timestamps are in milliseconds here. -/
def batchSpanMs : Int := 296 * 60 * 1000

/-- The grouping loop of `_get_bulk_pair_data_path`: `cur` is the batch under
construction (`timestamppairs[-1]` in the source, kept apart here), `cf` its
first timestamp (`current_first`, unchanged while the batch grows) and `acc`
the finished batches.  A timestamp with `cf + 296min > ts` is appended to
the open batch; any other timestamp starts a new batch and becomes
`current_first`. -/
def groupGo : List Int → Int → List Int → List (List Int) → List (List Int)
  | [], _, cur, acc => acc ++ [cur]
  | ts :: rest, cf, cur, acc =>
    if cf + batchSpanMs > ts then groupGo rest cf (cur ++ [ts]) acc
    else groupGo rest ts [ts] (acc ++ [cur])

/-- The timestamp grouping of `_get_bulk_pair_data_path`, over the requested
timestamps in their given order (the source does not sort them).
`current_first` is `None` only before the first timestamp — datetimes are
always truthy — so the first timestamp always opens the first batch. -/
def groupTimestamps : List Int → List (List Int)
  | [] => []
  | ts :: rest => groupGo rest ts [ts] []

/-- Finished batches are only ever prepended to the result. -/
lemma groupGo_acc (rest : List Int) :
    ∀ cf cur acc, groupGo rest cf cur acc = acc ++ groupGo rest cf cur [] := by
  induction rest with
  | nil => intro cf cur acc; simp [groupGo]
  | cons ts rest ih =>
    intro cf cur acc
    simp only [groupGo]
    split_ifs with h
    · exact ih cf (cur ++ [ts]) acc
    · rw [ih ts [ts] (acc ++ [cur]), ih ts [ts] ([] ++ [cur])]
      simp

/-- The first produced batch is the open batch, possibly extended. -/
lemma groupGo_head (rest : List Int) :
    ∀ cf cur, ∃ ext bs, groupGo rest cf cur [] = (cur ++ ext) :: bs := by
  induction rest with
  | nil => intro cf cur; exact ⟨[], [], by simp [groupGo]⟩
  | cons ts rest ih =>
    intro cf cur
    simp only [groupGo]
    split_ifs with h
    · obtain ⟨ext, bs, heq⟩ := ih cf (cur ++ [ts])
      exact ⟨ts :: ext, bs, by rw [heq]; simp⟩
    · obtain ⟨ext, bs, heq⟩ := ih ts [ts]
      exact ⟨[], (ts :: ext) :: bs, by rw [groupGo_acc rest ts [ts], heq]; simp⟩

/-- The batches partition the input: concatenated they give back
the open batch followed by the remaining timestamps. -/
lemma groupGo_flatten (rest : List Int) :
    ∀ cf cur, (groupGo rest cf cur []).flatten = cur ++ rest := by
  induction rest with
  | nil => intro cf cur; simp [groupGo]
  | cons ts rest ih =>
    intro cf cur
    simp only [groupGo]
    split_ifs with h
    · rw [ih]; simp
    · rw [groupGo_acc rest ts [ts]]
      simp [ih]

/-- No produced batch is empty (given a nonempty open batch). -/
lemma groupGo_ne_nil (rest : List Int) :
    ∀ cf cur, cur ≠ [] → ∀ b ∈ groupGo rest cf cur [], b ≠ [] := by
  induction rest with
  | nil =>
    intro cf cur hcur b hb
    simp [groupGo] at hb
    exact hb ▸ hcur
  | cons ts rest ih =>
    intro cf cur hcur b hb
    simp only [groupGo] at hb
    split_ifs at hb with h
    · exact ih cf (cur ++ [ts]) (by simp) b hb
    · rw [groupGo_acc rest ts [ts]] at hb
      simp only [List.nil_append, List.singleton_append, List.mem_append,
        List.mem_cons, List.not_mem_nil, or_false] at hb
      rcases hb with hb | hb
      · exact hb ▸ hcur
      · exact ih ts [ts] (by simp) b hb

/-- For an ascending input, every timestamp of every produced batch lies at
or after the batch's first timestamp and less than the span after it.  The
open batch is `cf :: cs`: `current_first` is its first timestamp. -/
lemma groupGo_bounds (rest : List Int) :
    ∀ cf cs, (∀ ts ∈ cf :: cs, cf ≤ ts ∧ ts < cf + batchSpanMs) →
      List.Sorted (· ≤ ·) ((cf :: cs) ++ rest) →
      ∀ b ∈ groupGo rest cf (cf :: cs) [], ∀ ts ∈ b,
        b.headI ≤ ts ∧ ts < b.headI + batchSpanMs := by
  induction rest with
  | nil =>
    intro cf cs hcur _ b hb ts hts
    simp [groupGo] at hb
    subst hb
    simpa using hcur ts hts
  | cons t rest ih =>
    intro cf cs hcur hsort b hb ts hts
    simp only [groupGo] at hb
    split_ifs at hb with h
    · have hct : cf ≤ t :=
        (List.sorted_cons.mp hsort).1 t (by simp)
      have hb' : b ∈ groupGo rest cf (cf :: (cs ++ [t])) [] := by
        simpa only [List.cons_append] using hb
      refine ih cf (cs ++ [t]) ?_
        (by simpa only [List.cons_append, List.append_assoc, List.singleton_append]
          using hsort) b hb' ts hts
      intro u hu
      rcases List.mem_cons.mp hu with rfl | hu
      · exact hcur u (by simp)
      · rcases List.mem_append.mp hu with hu | hu
        · exact hcur u (by simp [hu])
        · simp at hu
          subst hu
          exact ⟨hct, h⟩
    · rw [groupGo_acc rest t [t]] at hb
      simp only [List.nil_append, List.singleton_append, List.mem_append,
        List.mem_cons, List.not_mem_nil, or_false] at hb
      rcases hb with hb | hb
      · subst hb
        simpa using hcur ts hts
      · have hrest : List.Sorted (· ≤ ·) (t :: rest) :=
          List.Pairwise.sublist (List.sublist_append_right cs (t :: rest))
            (List.sorted_cons.mp hsort).2
        refine ih t [] ?_ (by simpa only [List.nil_append, List.cons_append] using hrest)
          b hb ts hts
        intro u hu
        simp at hu
        subst hu
        refine ⟨le_refl _, ?_⟩
        norm_num [batchSpanMs]

/-- Consecutive produced batches are span-separated: each later batch starts
at least the span after the previous batch's first timestamp — so no batch
could have absorbed its successor's first timestamp (maximality). -/
lemma groupGo_chain (rest : List Int) :
    ∀ cf cs, List.Chain' (fun b1 b2 => b1.headI + batchSpanMs ≤ b2.headI)
      (groupGo rest cf (cf :: cs) []) := by
  induction rest with
  | nil => intro cf cs; simp [groupGo]
  | cons t rest ih =>
    intro cf cs
    simp only [groupGo]
    split_ifs with h
    · simpa only [List.cons_append] using ih cf (cs ++ [t])
    · rw [groupGo_acc rest t [t]]
      obtain ⟨ext, bs, heq⟩ := groupGo_head rest t [t]
      rw [heq]
      simp only [List.nil_append, List.singleton_append]
      refine List.Chain'.cons ?_ ?_
      · simp only [List.headI]
        omega
      · have hchain := ih t []
        rw [heq] at hchain
        simpa using hchain

/-- C6 (amended): for every input whose timestamps are in ascending order,
the grouping partitions them, in order, into nonempty batches in which every
timestamp lies at or after the batch's first timestamp and less than
296 minutes after it, and each batch is maximal: the next batch's first
timestamp is at least 296 minutes after the current batch's first (so the
test that would have extended the batch fails for it).  For inputs not in
ascending order no such guarantee holds — the source iterates in input
order and never sorts (see the counterexample). -/
theorem batch_grouping_sorted (tss : List Int) (hsort : List.Sorted (· ≤ ·) tss) :
    (groupTimestamps tss).flatten = tss ∧
    (∀ b ∈ groupTimestamps tss, b ≠ []) ∧
    (∀ b ∈ groupTimestamps tss, ∀ ts ∈ b, b.headI ≤ ts ∧ ts < b.headI + batchSpanMs) ∧
    List.Chain' (fun b1 b2 => b1.headI + batchSpanMs ≤ b2.headI) (groupTimestamps tss) := by
  cases tss with
  | nil => simp [groupTimestamps]
  | cons ts rest =>
    refine ⟨?_, ?_, ?_, ?_⟩
    · rw [groupTimestamps, groupGo_flatten]
      simp
    · exact groupGo_ne_nil rest ts [ts] (by simp)
    · exact groupGo_bounds rest ts []
        (by intro u hu; simp at hu; subst hu
            exact ⟨le_refl _, by norm_num [batchSpanMs]⟩)
        (by simpa only [List.nil_append, List.cons_append] using hsort)
    · exact groupGo_chain rest ts []

/-- Witness for C6: four ascending timestamps split into two maximal batches
(`17760000 ms` is exactly the 296-minute span), per `batch_grouping_sorted`. -/
theorem batch_grouping_sorted_witness :
    List.Sorted (· ≤ ·) [(0 : Int), 1000, 17760000, 20000000] ∧
      ((groupTimestamps [0, 1000, 17760000, 20000000]).flatten =
        [0, 1000, 17760000, 20000000] ∧
      (∀ b ∈ groupTimestamps [0, 1000, 17760000, 20000000], b ≠ []) ∧
      (∀ b ∈ groupTimestamps [0, 1000, 17760000, 20000000], ∀ ts ∈ b,
        b.headI ≤ ts ∧ ts < b.headI + batchSpanMs) ∧
      List.Chain' (fun b1 b2 => b1.headI + batchSpanMs ≤ b2.headI)
        (groupTimestamps [0, 1000, 17760000, 20000000])) :=
  ⟨by decide, batch_grouping_sorted [0, 1000, 17760000, 20000000] (by decide)⟩

/-- Counterexample to C6 as stated: for the (unsorted) input
`[36000000, 0]` — 600 minutes, then 0 — the single produced batch is
`[36000000, 0]`: its second timestamp lies 600 minutes *before* the batch's
first timestamp (the join test `current_first + 296min > ts` also absorbs
arbitrarily older timestamps), the batch spans 600 minutes, and the batched
timestamps are not chronologically sorted. -/
theorem batch_grouping_counterexample :
    groupTimestamps [36000000, 0] = [[36000000, 0]] ∧
      ¬ (∀ b ∈ groupTimestamps [36000000, 0], ∀ ts ∈ b, b.headI ≤ ts) ∧
      ¬ List.Sorted (· ≤ ·) (groupTimestamps [36000000, 0]).flatten := by
  refine ⟨by decide, by decide, by decide⟩

/-- An operation as the Batch Preloader consumes it: a venue, a coin and a
UTC timestamp (in ms). -/
structure Operation where
  platform : String
  coin : String
  utc_time : Int
deriving DecidableEq

/-- Python truthiness of the `Optional[decimal.Decimal]` returned by
`__get_price_db`: `None` is falsy, and so is `Decimal("0")` — only a
nonzero stored price is truthy. -/
def optPriceTruthy : Option ℚ → Bool
  | none => false
  | some p => decide (p ≠ 0)

/-- The cache filter of `preload_price_data_path`: keep every operation `op`
with `not __get_price_db(get_db_path(op.platform), tablename, op.utc_time)`,
the table name being built once from the function's `coin` argument and the
reference coin.  Because this is Python `not` on an `Optional[Decimal]`, a
stored price of zero is falsy and the operation is kept. -/
def preload_filter (s : Store) (operations : List Operation)
    (coin reference_coin : String) : List Operation :=
  operations.filter (fun op =>
    ! optPriceTruthy
      (get_price_db s (op.platform, get_tablename coin reference_coin, op.utc_time)))

/-- C7 (amended): the preload filter removes exactly the operations whose
key has a *nonzero* stored price; an operation whose key is absent — or
cached with the zero "could not price" sentinel, which Python `not` treats
as falsy — stays in the list and is batched again. -/
theorem preload_filter_keeps_zero_and_missing (s : Store) (operations : List Operation)
    (coin reference_coin : String) (op : Operation) :
    op ∈ preload_filter s operations coin reference_coin ↔
      op ∈ operations ∧
        (get_price_db s (op.platform, get_tablename coin reference_coin, op.utc_time) =
          none ∨
        get_price_db s (op.platform, get_tablename coin reference_coin, op.utc_time) =
          some 0) := by
  rw [preload_filter, List.mem_filter]
  rcases hx : get_price_db s (op.platform, get_tablename coin reference_coin, op.utc_time)
    with _ | p
  · simp [optPriceTruthy]
  · simp [optPriceTruthy]

/-- Counterexample to C7 as stated: an operation whose key is cached with
price zero is *not* removed before batching — the filter keeps it. -/
theorem preload_filter_counterexample :
    get_price_db [(("binance", "BTC/EUR", 5), 0)]
        ("binance", get_tablename "BTC" "EUR", 5) = some 0 ∧
      preload_filter [(("binance", "BTC/EUR", 5), 0)] [⟨"binance", "BTC", 5⟩]
        "BTC" "EUR" = [⟨"binance", "BTC", 5⟩] := by
  decide

end CoinTaxman
